import Mathlib

/-!
Verification of the detection-normalization and saliency-orchestration layer
of `vision_explanation_methods` (`DRISE_runner.py`).

The detector adapter (`PytorchFasterRCNNWrapper.predict` with its inner
`apply_nms` and `filter_score` helpers) and the post-estimation logic of the
orchestrator (`get_drise_saliency_map`, lines 220-256) are embedded as pure
Lean functions over rational-valued tensors; floating-point scalars that may
be NaN are modelled by the type `Fl`.  The external DRISE estimator is an
external collaborator: its output (a list of raw saliency results per image)
is a parameter of the orchestrator model.  `expand_class_scores` lives in
`explanations/common.py`, which is not part of the sources at hand, and is
modelled from the specification.
-/

namespace DriseRunner

/-- A floating-point scalar, modelled as either NaN or a rational value. -/
inductive Fl where
  | nan : Fl
  | val (q : ℚ) : Fl
deriving DecidableEq, Inhabited

/-- Embedding of `torch.isnan` on one scalar. -/
def Fl.isNaN : Fl → Bool
  | .nan => true
  | .val _ => false

/-- An axis-aligned bounding box `(x1, y1, x2, y2)` in pixel coordinates. -/
structure Box where
  x1 : ℚ
  y1 : ℚ
  x2 : ℚ
  y2 : ℚ
deriving DecidableEq, Inhabited

/-- Raw per-image detector output: the `boxes`, `scores` and `labels` entries
of the prediction dict consumed by `apply_nms` and `filter_score`. -/
structure RawPrediction where
  boxes : List Box
  scores : List ℚ
  labels : List ℕ
deriving DecidableEq, Inhabited

/-- Boolean-mask tensor indexing `xs[keep]`: keep the entries whose mask bit
is `true`, preserving order. -/
def maskSelect {α : Type} : List Bool → List α → List α
  | _, [] => []
  | [], _ => []
  | b :: bs, x :: xs => if b then x :: maskSelect bs xs else maskSelect bs xs

/-- The `filter_score` helper from `DRISE_runner.py`: the mask is
`orig_prediction['scores'] > score_thresh`, applied to boxes, scores and
labels alike. -/
def filter_score (orig_prediction : RawPrediction) (score_thresh : ℚ) :
    RawPrediction :=
  let keep := orig_prediction.scores.map (fun s => decide (score_thresh < s))
  { boxes := maskSelect keep orig_prediction.boxes
    scores := maskSelect keep orig_prediction.scores
    labels := maskSelect keep orig_prediction.labels }

/-- Area of a box. -/
def boxArea (b : Box) : ℚ := (b.x2 - b.x1) * (b.y2 - b.y1)

/-- Area of the intersection of two boxes. -/
def interArea (a b : Box) : ℚ :=
  max 0 (min a.x2 b.x2 - max a.x1 b.x1) * max 0 (min a.y2 b.y2 - max a.y1 b.y1)

/-- Intersection-over-union of two boxes. -/
def iou (a b : Box) : ℚ :=
  interArea a b / (boxArea a + boxArea b - interArea a b)

/-- Greedy suppression over score-sorted candidates `(index, box, score)`:
keep the best remaining candidate and drop every remaining candidate whose
IoU with it exceeds the threshold; return the kept original indices in
selection order. -/
def nmsLoop (thresh : ℚ) : List (ℕ × Box × ℚ) → List ℕ
  | [] => []
  | c :: rest =>
      c.1 :: nmsLoop thresh (rest.filter (fun d => decide (iou c.2.1 d.2.1 ≤ thresh)))
termination_by l => l.length
decreasing_by
  simp only [List.length_cons]
  exact Nat.lt_succ_of_le (List.length_filter_le _ _)

/-- Embedding of `torchvision.ops.nms`: indices of the kept boxes, sorted by decreasing
score (stable on ties). -/
def nms (boxes : List Box) (scores : List ℚ) (iou_thresh : ℚ) : List ℕ :=
  let cands := (boxes.zip scores).enum
  nmsLoop iou_thresh (cands.mergeSort (fun a b => decide (b.2.2 ≤ a.2.2)))

/-- Integer-index tensor selection `xs[idxs]`. -/
def indexSelect {α : Type} (idxs : List ℕ) (xs : List α) : List α :=
  idxs.filterMap (fun i => xs[i]?)

/-- The `apply_nms` helper from `DRISE_runner.py`: suppress via `torchvision.ops.nms`
and reindex boxes, scores and labels by the kept indices. -/
def apply_nms (orig_prediction : RawPrediction) (iou_thresh : ℚ) :
    RawPrediction :=
  let keep := nms orig_prediction.boxes orig_prediction.scores iou_thresh
  { boxes := indexSelect keep orig_prediction.boxes
    scores := indexSelect keep orig_prediction.scores
    labels := indexSelect keep orig_prediction.labels }

/-- One expanded class-score row for a detection with confidence `c` and
predicted class `k` among `C` classes: the predicted class keeps `c` and the
remaining mass `1 - c` is spread uniformly over the other `C - 1` classes. -/
def scoreRow (c : ℚ) (k : ℕ) (C : ℕ) : List ℚ :=
  (List.range C).map (fun j => if j = k then c else (1 - c) / ((C : ℚ) - 1))

/-- Modelled from the spec: `expand_class_scores` is defined in
`vision_explanation_methods/explanations/common.py`, which is not among the
sources at hand.  Per the specification (§4.1 step 3), each surviving box's
scalar confidence is redistributed into a full row over all `C` classes: the
predicted class retains its reported confidence and the remaining mass
`1 - confidence` is spread uniformly across all other classes; one row per
surviving box. -/
def expand_class_scores (scores : List ℚ) (labels : List ℕ) (C : ℕ) :
    List (List ℚ) :=
  (scores.zip labels).map (fun p => scoreRow p.1 p.2 C)

/-- The normalized detection record: boxes, expanded per-class scores and
objectness scores for one image. -/
structure DetectionRecord where
  bounding_boxes : List Box
  class_scores : List (List ℚ)
  objectness_scores : List ℚ
deriving DecidableEq, Inhabited

/-- Per-image body of `PytorchFasterRCNNWrapper.predict`: suppression at IoU
threshold `0.005`, confidence filtering at threshold `0.2`, score expansion,
and constant objectness `1.0` per surviving box. -/
def predictOne (number_of_classes : ℕ) (raw_detection : RawPrediction) :
    DetectionRecord :=
  let d1 := apply_nms raw_detection (5 / 1000)
  let d2 := filter_score d1 (2 / 10)
  { bounding_boxes := d2.boxes
    class_scores := expand_class_scores d2.scores d2.labels number_of_classes
    objectness_scores := List.replicate d2.boxes.length 1 }

/-- The full `PytorchFasterRCNNWrapper.predict` applied to the detector's raw
per-image outputs: one detection record per image, in order. -/
def predict (number_of_classes : ℕ) (raw_detections : List RawPrediction) :
    List DetectionRecord :=
  raw_detections.map (predictOne number_of_classes)

/-- Maximum scan: fold the remaining entries into the best `(index, value)`
pair, replacing only on strictly larger values, so the earliest maximal
index survives. -/
def argmaxFrom (best : ℕ × ℚ) (i : ℕ) : List ℚ → ℕ × ℚ
  | [] => best
  | x :: xs => argmaxFrom (if best.2 < x then (i, x) else best) (i + 1) xs

/-- Embedding of `torch.argmax` over a one-dimensional score row: the index of the first
maximal entry (`0` on an empty row). -/
def torchArgmax : List ℚ → ℕ
  | [] => 0
  | x :: xs => (argmaxFrom (0, x) 1 xs).1

/-- A raw saliency result returned by the external estimator for one target
detection: the per-pixel `detection` tensor, flattened. -/
structure SaliencyResult where
  detection : List Fl
deriving DecidableEq, Inhabited

/-- Embedding of the validity test, `torch.isnan` of the `detection` tensor
followed by `any`. -/
def SaliencyResult.hasNaN (s : SaliencyResult) : Bool :=
  s.detection.any Fl.isNaN

/-- One rendered panel: the saliency map drawn in it together with the
bounding box and class label overlaid on it. -/
structure Panel where
  saliency : SaliencyResult
  box : Box
  label : ℕ
deriving DecidableEq, Inhabited

/-- The observable outcome of one orchestrator run: whether the sentinel
pair `(None, None)` was returned, whether the placeholder "not found" image
was written to the save path, and the panels of the composed figure when one
was produced. -/
structure RunOutcome where
  returnedSentinel : Bool
  savedPlaceholder : Bool
  panels : Option (List Panel)
deriving DecidableEq

/-- Post-estimation logic of `get_drise_saliency_map` (lines 220-256 of
`DRISE_runner.py`): fix `img_index = 0`, drop the saliency results whose
`detection` tensor contains a NaN, return the sentinel after saving the
placeholder when none survive, and otherwise build one panel per surviving
result, taking panel `i`'s saliency map from the filtered list but its box
and label from entry `i` of the image's original detection record. -/
def get_drise_saliency_map (detections : List DetectionRecord)
    (saliency_scores : List (List SaliencyResult)) : RunOutcome :=
  let img_index : ℕ := 0
  let valid := (saliency_scores.getD img_index []).filter (fun s => !s.hasNaN)
  let num_detections := valid.length
  if num_detections = 0 then
    { returnedSentinel := true, savedPlaceholder := true, panels := none }
  else
    let det := detections.getD img_index default
    { returnedSentinel := false
      savedPlaceholder := false
      panels := some ((List.range num_detections).map (fun i =>
        { saliency := valid.getD i default
          box := det.bounding_boxes.getD i default
          label := torchArgmax (det.class_scores.getD i []) })) }

/-! ### Helper lemmas about mask selection -/

lemma maskSelect_map_self {α : Type} (p : α → Bool) (xs : List α) :
    maskSelect (xs.map p) xs = xs.filter p := by
  induction xs with
  | nil => rfl
  | cons x xs ih =>
      by_cases h : p x <;> simp [maskSelect, List.filter_cons, h, ih]

lemma length_maskSelect_congr {α β : Type} (k : List Bool) (xs : List α)
    (ys : List β) (h : xs.length = ys.length) :
    (maskSelect k xs).length = (maskSelect k ys).length := by
  induction k generalizing xs ys with
  | nil => cases xs <;> cases ys <;> simp_all [maskSelect]
  | cons b bs ih =>
      cases xs with
      | nil => cases ys with
        | nil => rfl
        | cons y ys => simp at h
      | cons x xs =>
          cases ys with
          | nil => simp at h
          | cons y ys =>
              simp only [List.length_cons, Nat.succ.injEq] at h
              by_cases hb : b <;> simp [maskSelect, hb, ih xs ys h]

lemma maskSelect_zip_filter {α β : Type} (p : β → Bool) (xs : List β)
    (ys : List α) (h : ys.length = xs.length) :
    (maskSelect (xs.map p) ys).zip (maskSelect (xs.map p) xs)
      = (ys.zip xs).filter (fun bs => p bs.2) := by
  induction xs generalizing ys with
  | nil =>
      cases ys with
      | nil => rfl
      | cons y ys => simp at h
  | cons x xs ih =>
      cases ys with
      | nil => simp at h
      | cons y ys =>
          simp only [List.length_cons, Nat.succ.injEq] at h
          by_cases hp : p x <;>
            simp [maskSelect, List.filter_cons, hp, ih ys h]

lemma filter_score_scores (p : RawPrediction) (t : ℚ) :
    (filter_score p t).scores = p.scores.filter (fun s => decide (t < s)) := by
  simp [filter_score, maskSelect_map_self]

lemma filter_score_boxes_length (p : RawPrediction) (t : ℚ)
    (h : p.boxes.length = p.scores.length) :
    (filter_score p t).boxes.length
      = (p.scores.filter (fun s => decide (t < s))).length := by
  have := length_maskSelect_congr
    (p.scores.map (fun s => decide (t < s))) p.boxes p.scores h
  simpa [filter_score, maskSelect_map_self] using this

/-- C6, as stated by the claim, fails at the boundary: a box whose confidence
is exactly the threshold `0.2` is not below the threshold, yet `filter_score`
discards it, because the code keeps only scores strictly greater than the
threshold. -/
theorem filter_score_boundary_counterexample :
    (filter_score { boxes := [⟨0, 0, 1, 1⟩], scores := [1/5], labels := [0] }
        (1/5)).boxes = []
      ∧ ¬ ((1/5 : ℚ) < 1/5) := by
  constructor
  · norm_num [filter_score, maskSelect]
  · norm_num

/-- C6 (amended): confidence filtering keeps exactly the boxes whose
confidence is strictly above the threshold, paired with their own scores;
boxes with confidence less than or equal to the threshold are excluded
entirely, never down-weighted. -/
theorem filter_score_keeps_iff_above (p : RawPrediction) (t : ℚ)
    (h : p.boxes.length = p.scores.length) :
    ((filter_score p t).boxes).zip ((filter_score p t).scores)
      = (p.boxes.zip p.scores).filter (fun bs => decide (t < bs.2)) := by
  simpa [filter_score] using
    maskSelect_zip_filter (fun s => decide (t < s)) p.scores p.boxes h

/-- A concrete two-box raw prediction with one score at the threshold. -/
def boundaryPrediction : RawPrediction where
  boxes := [⟨0, 0, 1, 1⟩, ⟨2, 2, 3, 3⟩]
  scores := [1/5, 3/10]
  labels := [0, 1]

/-- A concrete two-box raw prediction with scores 0.3 and 0.7. -/
def twoScorePrediction : RawPrediction where
  boxes := [⟨0, 0, 1, 1⟩, ⟨2, 2, 3, 3⟩]
  scores := [3/10, 7/10]
  labels := [0, 1]

/-- Witness for C6 (amended) at a concrete prediction: the box scoring `0.3`
survives filtering at threshold `0.2` with its score, the box scoring `0.2`
is discarded. -/
theorem filter_score_keeps_iff_above_witness :
    boundaryPrediction.boxes.length = boundaryPrediction.scores.length
    ∧ ((filter_score boundaryPrediction (1/5)).boxes).zip
        ((filter_score boundaryPrediction (1/5)).scores)
      = (boundaryPrediction.boxes.zip boundaryPrediction.scores).filter
          (fun bs => decide ((1/5 : ℚ) < bs.2)) :=
  ⟨rfl, filter_score_keeps_iff_above boundaryPrediction (1/5) rfl⟩

/-- C7: for a fixed raw prediction, raising the confidence threshold never
increases the number of surviving boxes. -/
theorem filter_score_monotone (p : RawPrediction) (t1 t2 : ℚ)
    (hlen : p.boxes.length = p.scores.length) (hle : t1 ≤ t2) :
    (filter_score p t2).boxes.length ≤ (filter_score p t1).boxes.length := by
  rw [filter_score_boxes_length p t2 hlen, filter_score_boxes_length p t1 hlen]
  refine List.Sublist.length_le ?_
  refine List.monotone_filter_right p.scores (fun a ha => ?_)
  simp only [decide_eq_true_eq] at ha ⊢
  exact lt_of_le_of_lt hle ha

/-- Witness for C7 at a concrete prediction and threshold pair `0.2 ≤ 0.5`:
one box survives the higher threshold, two survive the lower one. -/
theorem filter_score_monotone_witness :
    twoScorePrediction.boxes.length = twoScorePrediction.scores.length
    ∧ ((1 : ℚ)/5 ≤ 1/2)
    ∧ (filter_score twoScorePrediction (1/2)).boxes.length
      ≤ (filter_score twoScorePrediction (1/5)).boxes.length :=
  ⟨rfl, by norm_num,
    filter_score_monotone twoScorePrediction (1/5) (1/2) rfl (by norm_num)⟩

/-! ### Helper lemmas about the argmax scan and the expanded score row -/

lemma argmaxFrom_of_forall_le (b : ℕ × ℚ) (i : ℕ) (xs : List ℚ)
    (h : ∀ x ∈ xs, x ≤ b.2) : argmaxFrom b i xs = b := by
  induction xs generalizing i with
  | nil => rfl
  | cons x xs ih =>
      have hx : ¬ b.2 < x := not_lt.mpr (h x (List.mem_cons_self x xs))
      simp only [argmaxFrom, if_neg hx]
      exact ih (i + 1) (fun y hy => h y (List.mem_cons_of_mem x hy))

lemma argmaxFrom_append (b : ℕ × ℚ) (i : ℕ) (xs ys : List ℚ) :
    argmaxFrom b i (xs ++ ys)
      = argmaxFrom (argmaxFrom b i xs) (i + xs.length) ys := by
  induction xs generalizing b i with
  | nil => simp [argmaxFrom]
  | cons x xs ih =>
      simp only [List.cons_append, argmaxFrom, List.length_cons]
      rw [show i + (xs.length + 1) = i + 1 + xs.length by omega]
      exact ih _ _

lemma argmaxFrom_principal (b : ℕ × ℚ) (i : ℕ) (ys zs : List ℚ) (c : ℚ)
    (hys : ∀ y ∈ ys, y ≤ b.2) (hc : b.2 < c) (hzs : ∀ z ∈ zs, z ≤ c) :
    argmaxFrom b i (ys ++ c :: zs) = (i + ys.length, c) := by
  rw [argmaxFrom_append, argmaxFrom_of_forall_le b i ys hys]
  simp only [argmaxFrom, if_pos hc]
  exact argmaxFrom_of_forall_le (i + ys.length, c) (i + ys.length + 1) zs hzs

lemma scoreRow_eq_append (c : ℚ) (k C : ℕ) (hk : k < C) :
    scoreRow c k C
      = List.replicate k ((1 - c) / ((C : ℚ) - 1))
        ++ c :: List.replicate (C - k - 1) ((1 - c) / ((C : ℚ) - 1)) := by
  rw [scoreRow,
    show List.range C = List.range (k + (C - k - 1 + 1)) by
      rw [show k + (C - k - 1 + 1) = C by omega],
    List.range_add, List.range_succ_eq_map, List.map_append, List.map_map,
    List.map_cons, List.map_map]
  congr 1
  · refine List.eq_replicate_iff.mpr ⟨by simp, ?_⟩
    intro b hb
    obtain ⟨j, hj, rfl⟩ := List.mem_map.mp hb
    have hjk : j ≠ k := by have := List.mem_range.mp hj; omega
    simp [hjk]
  · congr 1
    · simp
    · refine List.eq_replicate_iff.mpr ⟨by simp, ?_⟩
      intro b hb
      obtain ⟨j, hj, rfl⟩ := List.mem_map.mp hb
      simp only [Function.comp_apply]
      rw [if_neg (by omega)]

/-- C1: the expanded class-score row for a surviving detection with
confidence `c`, predicted class `k` and class count `C ≥ 2` keeps `c` at
index `k`, assigns `(1 - c)/(C - 1)` to every other index below `C`, and
sums to exactly `1`. -/
theorem expanded_row_spec (c : ℚ) (k C : ℕ) (hk : k < C) (hC : 2 ≤ C) :
    (scoreRow c k C).getD k 0 = c
    ∧ (∀ j, j < C → j ≠ k →
        (scoreRow c k C).getD j 0 = (1 - c) / ((C : ℚ) - 1))
    ∧ (scoreRow c k C).sum = 1 := by
  have hC1 : ((C : ℚ) - 1) ≠ 0 := by
    have h2 : (2 : ℚ) ≤ (C : ℚ) := by exact_mod_cast hC
    linarith
  refine ⟨?_, ?_, ?_⟩
  · simp [scoreRow, List.getD_eq_getElem?_getD, List.getElem?_range hk]
  · intro j hj hjk
    simp [scoreRow, List.getD_eq_getElem?_getD, List.getElem?_range hj, hjk]
  · rw [scoreRow_eq_append c k C hk, List.sum_append, List.sum_cons,
      List.sum_replicate, List.sum_replicate, nsmul_eq_mul, nsmul_eq_mul]
    have hsum : (k : ℚ) * ((1 - c) / ((C : ℚ) - 1))
        + ((C - k - 1 : ℕ) : ℚ) * ((1 - c) / ((C : ℚ) - 1))
        = ((C : ℚ) - 1) * ((1 - c) / ((C : ℚ) - 1)) := by
      rw [← add_mul]
      congr 1
      have : ((C - k - 1 : ℕ) : ℚ) = (C : ℚ) - (k : ℚ) - 1 := by
        have h1 : k + 1 ≤ C := hk
        push_cast [Nat.sub_sub, Nat.cast_sub h1]
        ring
      rw [this]; ring
    calc (k : ℚ) * ((1 - c) / ((C : ℚ) - 1))
          + (c + ((C - k - 1 : ℕ) : ℚ) * ((1 - c) / ((C : ℚ) - 1)))
        = ((k : ℚ) * ((1 - c) / ((C : ℚ) - 1))
            + ((C - k - 1 : ℕ) : ℚ) * ((1 - c) / ((C : ℚ) - 1))) + c := by ring
      _ = ((C : ℚ) - 1) * ((1 - c) / ((C : ℚ) - 1)) + c := by rw [hsum]
      _ = (1 - c) + c := by rw [mul_div_cancel₀ _ hC1]
      _ = 1 := by ring

/-- Witness for C1 at confidence `0.9`, class `3`, class count `5`: the row
is `[0.025, 0.025, 0.025, 0.9, 0.025]` and sums to one. -/
theorem expanded_row_spec_witness :
    ((3 : ℕ) < 5 ∧ (2 : ℕ) ≤ 5)
    ∧ (scoreRow (9/10) 3 5).getD 3 0 = 9/10
    ∧ (scoreRow (9/10) 3 5).getD 0 0 = (1 - 9/10) / ((5 : ℚ) - 1)
    ∧ (scoreRow (9/10) 3 5).sum = 1 :=
  ⟨⟨by norm_num, by norm_num⟩,
    (expanded_row_spec (9/10) 3 5 (by norm_num) (by norm_num)).1,
    (expanded_row_spec (9/10) 3 5 (by norm_num) (by norm_num)).2.1 0
      (by norm_num) (by norm_num),
    (expanded_row_spec (9/10) 3 5 (by norm_num) (by norm_num)).2.2⟩

/-- C3, as stated by the claim, fails for small confidences: with `C = 2`
classes, a surviving confidence of `0.3` (above the `0.2` filter) for
predicted class `1` yields the expanded row `[0.7, 0.3]`, whose argmax is
`0`, not the original class `1`. -/
theorem panel_label_counterexample :
    torchArgmax (scoreRow (3/10) 1 2) ≠ 1 ∧ ((1 : ℚ)/5 < 3/10) := by
  constructor
  · norm_num [torchArgmax, scoreRow, argmaxFrom, List.range_succ]
  · norm_num

/-- C3 (amended): the argmax of the expanded row (lowest index winning
ties) recovers the original predicted class `k` whenever the confidence
exceeds `1/C`, i.e. `1 < c * C`; with the pipeline's 91 classes every
confidence above the `0.2` filter qualifies. -/
theorem panel_label_eq_predicted (c : ℚ) (k C : ℕ) (hk : k < C) (hC : 2 ≤ C)
    (hc : 1 < c * (C : ℚ)) : torchArgmax (scoreRow c k C) = k := by
  have hCQ : (0 : ℚ) < (C : ℚ) - 1 := by
    have h2 : (2 : ℚ) ≤ (C : ℚ) := by exact_mod_cast hC
    linarith
  have hvc : (1 - c) / ((C : ℚ) - 1) < c := by
    rw [div_lt_iff₀ hCQ]
    nlinarith
  rw [scoreRow_eq_append c k C hk]
  cases k with
  | zero =>
      simp only [List.replicate_zero, List.nil_append]
      simp only [torchArgmax]
      rw [argmaxFrom_of_forall_le (0, c) 1 _ (fun x hx => by
        rw [List.eq_of_mem_replicate hx]; exact le_of_lt hvc)]
  | succ m =>
      rw [List.replicate_succ, List.cons_append]
      simp only [torchArgmax]
      rw [argmaxFrom_principal (0, (1 - c) / ((C : ℚ) - 1)) 1
        (List.replicate m ((1 - c) / ((C : ℚ) - 1))) _ c
        (fun y hy => by rw [List.eq_of_mem_replicate hy])
        hvc
        (fun z hz => by rw [List.eq_of_mem_replicate hz]; exact le_of_lt hvc)]
      simp [List.length_replicate, Nat.add_comm]

/-- Witness for C3 (amended) at confidence `0.9`, class `3`, class count
`5`: the displayed label is `3`. -/
theorem panel_label_eq_predicted_witness :
    ((3 : ℕ) < 5 ∧ (2 : ℕ) ≤ 5 ∧ (1 : ℚ) < (9/10) * ((5 : ℕ) : ℚ))
    ∧ torchArgmax (scoreRow (9/10) 3 5) = 3 :=
  ⟨⟨by norm_num, by norm_num, by norm_num⟩,
    panel_label_eq_predicted (9/10) 3 5 (by norm_num) (by norm_num)
      (by norm_num)⟩

/-! ### Length bookkeeping through suppression, filtering and expansion -/

lemma length_indexSelect_congr {α β : Type} (idxs : List ℕ) (xs : List α)
    (ys : List β) (h : xs.length = ys.length) :
    (indexSelect idxs xs).length = (indexSelect idxs ys).length := by
  induction idxs with
  | nil => rfl
  | cons i is ih =>
      simp only [indexSelect, List.filterMap_cons] at ih ⊢
      by_cases hi : i < xs.length
      · rw [List.getElem?_eq_getElem hi, List.getElem?_eq_getElem (h ▸ hi)]
        simpa using ih
      · rw [List.getElem?_eq_none (Nat.le_of_not_lt hi),
          List.getElem?_eq_none (by omega)]
        exact ih

lemma apply_nms_box_score_length (p : RawPrediction) (t : ℚ)
    (h : p.boxes.length = p.scores.length) :
    (apply_nms p t).boxes.length = (apply_nms p t).scores.length := by
  simp only [apply_nms]
  exact length_indexSelect_congr _ _ _ h

lemma apply_nms_score_label_length (p : RawPrediction) (t : ℚ)
    (h : p.scores.length = p.labels.length) :
    (apply_nms p t).scores.length = (apply_nms p t).labels.length := by
  simp only [apply_nms]
  exact length_indexSelect_congr _ _ _ h

lemma filter_score_box_score_length (p : RawPrediction) (t : ℚ)
    (h : p.boxes.length = p.scores.length) :
    (filter_score p t).boxes.length = (filter_score p t).scores.length := by
  simp only [filter_score]
  exact length_maskSelect_congr _ _ _ h

lemma filter_score_score_label_length (p : RawPrediction) (t : ℚ)
    (h : p.scores.length = p.labels.length) :
    (filter_score p t).scores.length = (filter_score p t).labels.length := by
  simp only [filter_score]
  exact length_maskSelect_congr _ _ _ h

lemma expand_class_scores_length (scores : List ℚ) (labels : List ℕ)
    (C : ℕ) (h : scores.length = labels.length) :
    (expand_class_scores scores labels C).length = scores.length := by
  simp [expand_class_scores, List.length_zip, h]

lemma mergeSort_pair {α : Type} (le : α → α → Bool) (a b : α) :
    List.mergeSort [a, b] le = if le a b then [a, b] else [b, a] := by
  rw [List.mergeSort]
  simp [List.splitInTwo, List.merge]

/-- A one-box raw prediction whose confidence `0.1` falls below the `0.2`
confidence filter, so every box is removed. -/
def lowScorePrediction : RawPrediction where
  boxes := [⟨0, 0, 1, 1⟩]
  scores := [1/10]
  labels := [0]

/-- C8: every detection record built by `predict` has equally many boxes,
class-score rows and objectness scores, and the empty record (`N = 0`,
produced when the confidence filter removes every box) is an ordinary value
that `predictOne` returns, not an error. -/
theorem predict_record_invariant :
    (∀ (C : ℕ) (p : RawPrediction),
        p.boxes.length = p.scores.length →
        p.scores.length = p.labels.length →
        (predictOne C p).bounding_boxes.length
            = (predictOne C p).class_scores.length
        ∧ (predictOne C p).class_scores.length
            = (predictOne C p).objectness_scores.length)
    ∧ predictOne 91 lowScorePrediction
        = { bounding_boxes := [], class_scores := [],
            objectness_scores := [] } := by
  constructor
  · intro C p h1 h2
    have hq1 := apply_nms_box_score_length p (5/1000) h1
    have hq2 := apply_nms_score_label_length p (5/1000) h2
    have hr1 := filter_score_box_score_length (apply_nms p (5/1000)) (2/10) hq1
    have hr2 := filter_score_score_label_length (apply_nms p (5/1000)) (2/10) hq2
    have he := expand_class_scores_length
      (filter_score (apply_nms p (5/1000)) (2/10)).scores
      (filter_score (apply_nms p (5/1000)) (2/10)).labels C hr2
    simp only [predictOne]
    constructor
    · rw [he]; exact hr1
    · rw [he, List.length_replicate]; exact hr1.symm
  · norm_num [predictOne, apply_nms, nms, nmsLoop, indexSelect,
      filter_score, maskSelect, expand_class_scores, iou, interArea,
      boxArea, lowScorePrediction, List.filter, List.enum, List.enumFrom,
      mergeSort_pair]

/-- Witness for C8 at the all-filtered one-box prediction: the resulting
record is the empty `N = 0` record, and its three lengths agree. -/
theorem predict_record_invariant_witness :
    (lowScorePrediction.boxes.length = lowScorePrediction.scores.length
      ∧ lowScorePrediction.scores.length = lowScorePrediction.labels.length)
    ∧ (predictOne 91 lowScorePrediction).bounding_boxes.length
        = (predictOne 91 lowScorePrediction).class_scores.length
    ∧ (predictOne 91 lowScorePrediction).class_scores.length
        = (predictOne 91 lowScorePrediction).objectness_scores.length :=
  ⟨⟨rfl, rfl⟩, predict_record_invariant.1 91 lowScorePrediction rfl rfl⟩

/-- C9: the adapter is deterministic: two runs of `predict` on equal raw
detector outputs produce identical detection records, equal box for box,
score row for score row and objectness entry for objectness entry. -/
theorem predict_deterministic (C : ℕ) (r1 r2 : List RawPrediction)
    (h : r1 = r2) :
    predict C r1 = predict C r2
    ∧ ∀ i, ((predict C r1).getD i default).bounding_boxes
          = ((predict C r2).getD i default).bounding_boxes
      ∧ ((predict C r1).getD i default).class_scores
          = ((predict C r2).getD i default).class_scores
      ∧ ((predict C r1).getD i default).objectness_scores
          = ((predict C r2).getD i default).objectness_scores := by
  subst h
  exact ⟨rfl, fun _ => ⟨rfl, rfl, rfl⟩⟩

/-- Witness for C9 at a concrete raw output. -/
theorem predict_deterministic_witness :
    ([boundaryPrediction] = [boundaryPrediction])
    ∧ predict 91 [boundaryPrediction] = predict 91 [boundaryPrediction] :=
  ⟨rfl, (predict_deterministic 91 [boundaryPrediction] [boundaryPrediction]
    rfl).1⟩

/-! ### Orchestrator-level properties -/

/-- A detection record with two detections, predicting classes 0 and 1. -/
def mispairRecord : DetectionRecord where
  bounding_boxes := [⟨0, 0, 1, 1⟩, ⟨2, 2, 3, 3⟩]
  class_scores := [[1, 0], [0, 1]]
  objectness_scores := [1, 1]

/-- A saliency result invalidated by a NaN entry. -/
def nanResult : SaliencyResult := ⟨[Fl.nan]⟩

/-- A NaN-free saliency result. -/
def validResult : SaliencyResult := ⟨[Fl.val 1]⟩

/-- The panel the orchestrator builds from `validResult` and the first
detection of `mispairRecord`. -/
def firstBoxPanel : Panel := ⟨validResult, ⟨0, 0, 1, 1⟩, 0⟩

lemma getD_mem_of_lt {α : Type} [Inhabited α] (l : List α) (i : ℕ)
    (h : i < l.length) : l.getD i default ∈ l := by
  induction l generalizing i with
  | nil => simp at h
  | cons x xs ih =>
      cases i with
      | zero => simp
      | succ n =>
          simp only [List.getD_cons_succ]
          exact List.mem_cons_of_mem _ (ih n (by simpa using h))

/-- C4: no saliency result whose `detection` tensor contains a NaN anywhere
ever reaches the presentation step: every panel of a produced figure draws a
NaN-free saliency map. -/
theorem nan_results_never_presented (detections : List DetectionRecord)
    (saliency_scores : List (List SaliencyResult)) (ps : List Panel)
    (h : (get_drise_saliency_map detections saliency_scores).panels = some ps) :
    ∀ pa ∈ ps, pa.saliency.hasNaN = false := by
  intro pa hpa
  by_cases hz :
      ((saliency_scores.getD 0 []).filter (fun s => !s.hasNaN)).length = 0
  · simp only [get_drise_saliency_map] at h
    rw [if_pos hz] at h
    simp at h
  · simp only [get_drise_saliency_map, if_neg hz] at h
    obtain rfl := (Option.some.injEq _ _).mp h.symm
    obtain ⟨i, hi, rfl⟩ := List.mem_map.mp hpa
    have hilt : i < ((saliency_scores.getD 0 []).filter
        (fun s => !s.hasNaN)).length := List.mem_range.mp hi
    have hmem := getD_mem_of_lt
      ((saliency_scores.getD 0 []).filter (fun s => !s.hasNaN)) i hilt
    have := (List.mem_filter.mp hmem).2
    simpa using this

/-- Witness for C4: with one NaN-free saliency result the figure holds one
panel, and that panel's saliency map is NaN-free. -/
theorem nan_results_never_presented_witness :
    (get_drise_saliency_map [mispairRecord] [[validResult]]).panels
      = some [firstBoxPanel]
    ∧ firstBoxPanel.saliency.hasNaN = false := by
  have hp : (get_drise_saliency_map [mispairRecord] [[validResult]]).panels
      = some [firstBoxPanel] := by
    norm_num [get_drise_saliency_map, validResult, mispairRecord,
      firstBoxPanel, SaliencyResult.hasNaN, Fl.isNaN, torchArgmax,
      argmaxFrom, List.filter, List.range_succ]
  refine ⟨hp, ?_⟩
  exact nan_results_never_presented [mispairRecord] [[validResult]] _ hp
    _ (List.mem_singleton.mpr rfl)

/-- C5: when no valid saliency result remains after NaN filtering (also when
there was nothing to filter), the orchestrator returns the sentinel pair,
persists the placeholder image, and produces no figure. -/
theorem terminal_case_sentinel (detections : List DetectionRecord)
    (saliency_scores : List (List SaliencyResult))
    (h : (saliency_scores.getD 0 []).filter (fun s => !s.hasNaN) = []) :
    get_drise_saliency_map detections saliency_scores
      = { returnedSentinel := true, savedPlaceholder := true,
          panels := none } := by
  have hz : ((saliency_scores.getD 0 []).filter
      (fun s => !s.hasNaN)).length = 0 := by rw [h]; rfl
  simp only [get_drise_saliency_map]
  rw [if_pos hz]

/-- Witness for C5: a single all-NaN saliency result leaves zero valid
results and triggers the terminal case. -/
theorem terminal_case_sentinel_witness :
    (([[nanResult]] : List (List SaliencyResult)).getD 0 []).filter
        (fun s => !s.hasNaN) = []
    ∧ get_drise_saliency_map [mispairRecord] [[nanResult]]
      = { returnedSentinel := true, savedPlaceholder := true,
          panels := none } := by
  have hf : (([[nanResult]] : List (List SaliencyResult)).getD 0 []).filter
      (fun s => !s.hasNaN) = [] := by
    simp [nanResult, SaliencyResult.hasNaN, Fl.isNaN]
  exact ⟨hf, terminal_case_sentinel [mispairRecord] [[nanResult]] hf⟩

/-- C10: the orchestrator's outcome depends only on the entry at batch index
0 of the detection records and of the estimator's per-image results; the
other replicated batch entries never influence what is drawn or saved. -/
theorem outcome_depends_only_on_first_image (d1 d2 : List DetectionRecord)
    (s1 s2 : List (List SaliencyResult))
    (hd : d1.getD 0 default = d2.getD 0 default)
    (hs : s1.getD 0 [] = s2.getD 0 []) :
    get_drise_saliency_map d1 s1 = get_drise_saliency_map d2 s2 := by
  simp only [get_drise_saliency_map, hd, hs]

/-- Witness for C10: two batches agreeing at index 0 but differing at index
1 yield the same outcome. -/
theorem outcome_depends_only_on_first_image_witness :
    (([mispairRecord, mispairRecord] : List DetectionRecord).getD 0 default
      = ([mispairRecord, default] : List DetectionRecord).getD 0 default)
    ∧ (([[validResult], [nanResult]] :
        List (List SaliencyResult)).getD 0 []
      = ([[validResult], []] : List (List SaliencyResult)).getD 0 [])
    ∧ get_drise_saliency_map [mispairRecord, mispairRecord]
        [[validResult], [nanResult]]
      = get_drise_saliency_map [mispairRecord, default]
        [[validResult], []] :=
  ⟨rfl, rfl,
    outcome_depends_only_on_first_image [mispairRecord, mispairRecord]
      [mispairRecord, default] [[validResult], [nanResult]]
      [[validResult], []] rfl rfl⟩

/-- C2 fails on the code: with two target detections whose first saliency
result contains a NaN, the surviving result — estimated for detection 1,
whose box is `(2,2,3,3)` and label `1` — is rendered with detection 0's box
`(0,0,1,1)` and label `0`, because the code indexes the unfiltered
detection record with the position in the NaN-filtered list. -/
theorem saliency_box_mispairing :
    get_drise_saliency_map [mispairRecord] [[nanResult, validResult]]
      = { returnedSentinel := false, savedPlaceholder := false,
          panels := some [firstBoxPanel] }
    ∧ mispairRecord.bounding_boxes.getD 1 default = ⟨2, 2, 3, 3⟩
    ∧ (firstBoxPanel.box ≠ ⟨2, 2, 3, 3⟩)
    ∧ torchArgmax (mispairRecord.class_scores.getD 1 []) = 1 := by
  refine ⟨?_, rfl, ?_, ?_⟩
  · norm_num [get_drise_saliency_map, validResult, nanResult, mispairRecord,
      firstBoxPanel, SaliencyResult.hasNaN, Fl.isNaN, torchArgmax,
      argmaxFrom, List.filter, List.range_succ]
  · intro hcontra
    have := congrArg Box.x1 hcontra
    norm_num [firstBoxPanel] at this
  · norm_num [mispairRecord, torchArgmax, argmaxFrom]

end DriseRunner
